import Mathlib

/-!
Verification of the ShellOS package-repository coordinator (src/app.js).

The file shallowly embeds the coordinator of `src/app.js`:
the pure string computations of `handleUpload` (name sanitization,
extension extraction, destination filename), the fields of the React
component state, `handleUpload` itself as a state transformer, and the
session's event-driven behaviour as an executable labelled transition
system whose events are the asynchronous callbacks of the source
(Firebase initialization, `onAuthStateChanged`, the catalog
`onSnapshot` subscription, the upload task's progress / error /
completion callbacks, and the metadata `addDoc` outcome).

Abstractions kept explicit below:
* JavaScript strings are Lean `String`s; `toLowerCase` is modelled
  ASCII-only by `Char.toLower` (all inputs of interest are ASCII).
* The JavaScript float `uploadProgress` is modelled as a rational.
* `serverTimestamp()` is an opaque store-assigned `Nat`.
-/

namespace ShellOSPackages

/-- A browser `File` value: only its `name` and `size` are read by the
coordinator (`file.name.split('.').pop()` and the progress events). -/
structure JsFile where
  name : String
  size : Nat
deriving DecidableEq, Repr

/-- The document written by `addDoc` in the upload completion handler
(src/app.js lines 144-153). `uploadTime` is the store-assigned
`serverTimestamp()`. -/
structure PackageRecord where
  name : String
  displayName : String
  description : String
  version : String
  fileName : String
  fileUrl : String
  uploaderId : String
  uploadTime : Nat
deriving DecidableEq, Repr

/-- JavaScript truthiness of the `userId` state variable: `!userId` is
true exactly when it is `null` or the empty string. -/
def jsTruthy : Option String → Bool
  | none => false
  | some s => !(s == "")

/-- Model of `packageName.toLowerCase()` (src/app.js line 118), ASCII-only. -/
def jsToLower (s : String) : String :=
  String.mk (s.data.map Char.toLower)

/-- The character class `[a-z0-9_.-]` of the sanitizing regex on
src/app.js line 118: a character survives `replace(/[^a-z0-9_.-]/g, '')`
exactly when this is true. -/
def allowedChar (c : Char) : Bool :=
  ('a' ≤ c && c ≤ 'z') || ('0' ≤ c && c ≤ '9') || c == '_' || c == '.' || c == '-'

/-- Model of `packageName.toLowerCase().replace(/[^a-z0-9_.-]/g, '')`
(src/app.js line 118). -/
def sanitizedName (s : String) : String :=
  String.mk ((jsToLower s).data.filter allowedChar)

/-- JavaScript `split('.')` on a character list: cuts at every `'.'`;
the empty input yields `[[]]`, matching `"".split('.') = [""]`. -/
def splitDot : List Char → List (List Char)
  | [] => [[]]
  | c :: cs =>
    if c = '.' then [] :: splitDot cs
    else
      match splitDot cs with
      | [] => [[c]]
      | t :: ts => (c :: t) :: ts

/-- Model of `file.name.split('.').pop()` (src/app.js line 119): the last piece of
the dot-split file name. -/
def fileExtension (s : String) : String :=
  String.mk ((splitDot s.data).getLastD [])

/-- The destination filename
`` `${sanitizedPackageName}_v${packageVersion}.${fileExtension}` ``
(src/app.js line 120). -/
def deriveFileName (name version fname : String) : String :=
  sanitizedName name ++ "_v" ++ version ++ "." ++ fileExtension fname

/-- The storage destination path
`` `artifacts/${appId}/packages/${fileName}` `` (src/app.js line 122). -/
def destinationPath (appId fileName : String) : String :=
  "artifacts/" ++ appId ++ "/packages/" ++ fileName

/-- The data the upload completion closure of `handleUpload` captures at
submission time (src/app.js lines 116-123 and 137-153): the submitted
form fields, the derived destination filename and the session identity,
all read from the render in which `handleUpload` ran. -/
structure UploadCtx where
  name : String
  description : String
  version : String
  fileName : String
  uploaderId : String
deriving DecidableEq, Repr

/-- The React component state of `App` (src/app.js lines 15-29) together
with the session-level bookkeeping that the embedding makes explicit:
`subscribed` records whether the catalog `onSnapshot` subscription is
open, `pendingUploads` the upload tasks whose terminal event has not yet
fired, `committing` the completed uploads (with their resolved download
URL) whose `addDoc` has not yet settled, and `records` the documents this
session has successfully written to the store. -/
structure SessionState where
  db : Bool
  auth : Bool
  storage : Bool
  userId : Option String
  isAuthReady : Bool
  packages : List PackageRecord
  uploading : Bool
  uploadProgress : ℚ
  uploadMessage : String
  packageName : String
  packageDescription : String
  packageVersion : String
  packageFile : Option JsFile
  subscribed : Bool
  pendingUploads : List UploadCtx
  committing : List (UploadCtx × String)
  records : List PackageRecord
deriving DecidableEq, Repr

/-- The initial component state: every `useState` initializer of
src/app.js lines 15-29 (`null`, `false`, `[]`, `0`, `''`), with no
subscription open, no upload in flight and nothing written. -/
def initState : SessionState :=
  { db := false, auth := false, storage := false, userId := none,
    isAuthReady := false, packages := [], uploading := false,
    uploadProgress := 0, uploadMessage := "", packageName := "",
    packageDescription := "", packageVersion := "", packageFile := none,
    subscribed := false, pendingUploads := [], committing := [],
    records := [] }

/-- The validation disjunction of src/app.js line 107, in source order:
`!packageFile || !packageName || !packageDescription || !packageVersion
|| !auth || !userId`. -/
def validationFails (s : SessionState) : Bool :=
  s.packageFile.isNone || s.packageName == "" || s.packageDescription == "" ||
    s.packageVersion == "" || !s.auth || !(jsTruthy s.userId)

/-- Model of `handleUpload` (src/app.js lines 105-173) up to its first
asynchronous suspension: either the validation rejection (line 107-110),
or the synchronous prefix of an accepted publish — `setUploading(true)`,
`setUploadMessage('Starting upload...')`, `setUploadProgress(0)`, the
filename derivation, and the start of the upload task, whose completion
closure captures the submitted fields and the current `userId`. -/
def handleUpload (s : SessionState) : SessionState :=
  if validationFails s then
    { s with uploadMessage := "Please fill all fields and select a file." }
  else
    match s.packageFile with
    | none => s
    | some f =>
      { s with uploading := true,
               uploadMessage := "Starting upload...",
               uploadProgress := 0,
               pendingUploads := s.pendingUploads ++
                 [{ name := s.packageName,
                    description := s.packageDescription,
                    version := s.packageVersion,
                    fileName := deriveFileName s.packageName s.packageVersion f.name,
                    uploaderId := s.userId.getD "" }] }

/-- The record built by the `addDoc` call of src/app.js lines 144-153
from the closure-captured submission data, the resolved download URL and
the store-assigned timestamp. -/
def mkRecord (ctx : UploadCtx) (url : String) (t : Nat) : PackageRecord :=
  { name := jsToLower ctx.name,
    displayName := ctx.name,
    description := ctx.description,
    version := ctx.version,
    fileName := ctx.fileName,
    fileUrl := url,
    uploaderId := ctx.uploaderId,
    uploadTime := t }

/-- The message of the progress handler (src/app.js lines 127-131);
`toFixed(0)` float formatting is abstracted by rounded natural division
(`total = 0` never occurs for a real file). -/
def progressMessage (transferred total : Nat) : String :=
  "Upload is " ++ toString ((transferred * 200 + total) / (2 * total)) ++ "% done"

/-- The asynchronous occurrences that drive the component, one per
callback registered by src/app.js:
* `initOk` / `initFail` — the Firebase initialization block
  (lines 32-74) succeeding or throwing;
* `authCallback user fresh` — one invocation of the `onAuthStateChanged`
  listener (lines 58-65); `user` is the delivered user's uid (or `none`),
  `fresh` the `crypto.randomUUID()` drawn if `user` is absent;
* `subscribeOpen`, `snapshotArrive`, `subscribeError` — the catalog
  effect (lines 77-97) opening `onSnapshot` and its two callbacks;
* `setName`, `setDescription`, `setVersion`, `fileChange` — the form
  field `onChange` handlers (lines 99-103, 202, 214, 228);
* `submitUI` — the form's `onSubmit` (line 195) reaching `handleUpload`
  through the submit control, which is disabled while `uploading` or
  before `isAuthReady` (line 252);
* `progressEv`, `uploadError`, `uploadComplete`, `urlFail` — the upload
  task callbacks (lines 125-141); `urlFail` is `getDownloadURL`
  throwing inside the completion handler's `try`;
* `commitOk`, `commitFail` — the `addDoc` of the completion handler
  resolving (lines 144-163) or throwing (lines 164-166). -/
inductive Event where
  | initOk
  | initFail (err : String)
  | authCallback (user : Option String) (fresh : String)
  | subscribeOpen
  | snapshotArrive (recs : List PackageRecord)
  | subscribeError (err : String)
  | setName (v : String)
  | setDescription (v : String)
  | setVersion (v : String)
  | fileChange (f : JsFile)
  | submitUI
  | progressEv (i : Nat) (transferred total : Nat)
  | uploadError (i : Nat) (msg : String)
  | uploadComplete (i : Nat) (url : String)
  | urlFail (i : Nat) (err : String)
  | commitOk (i : Nat) (t : Nat)
  | commitFail (i : Nat) (err : String)
deriving DecidableEq, Repr

/-- One step of the session: `none` when the event cannot occur in `s`
(its guard, taken from the source, is false). Guards and effects are
read off src/app.js:
* `initOk` sets the three handles together (lines 39-41, all-or-nothing
  inside one `try`); the mount effect runs once;
* the auth listener is registered only after successful initialization
  (line 58) and each invocation sets `userId` — the delivered uid, or a
  fresh UUID when no user is present (lines 59-63) — and then
  `setIsAuthReady(true)` (line 64); uids and UUIDs are nonempty;
* the catalog subscription opens once `db` is set and auth is ready
  (line 78) and is opened only once per session (the effect's
  dependencies change once and it cleans up);
* the form inputs are disabled while `!isAuthReady || uploading`
  (lines 205, 218, 231, 243), as is the submit control (line 252);
* the upload callbacks address a task in `pendingUploads`, the
  `addDoc` outcomes a completed upload in `committing`;
* `uploadError` (lines 132-136) sets the failure message and clears
  `uploading` but does not touch the form, progress or the store;
* `uploadComplete` moves the task to the committing stage with its
  resolved URL (lines 137-143); `urlFail` and `commitFail` land in the
  same `catch`/`finally` (lines 164-170); `commitOk` appends one record
  in one `addDoc` write, then clears the form and resets the progress
  indicators (lines 144-170). -/
def step (s : SessionState) : Event → Option SessionState
  | .initOk =>
    if s.db then none
    else some { s with db := true, auth := true, storage := true }
  | .initFail err =>
    if s.db then none
    else some { s with uploadMessage := "Firebase init error: " ++ err }
  | .authCallback user fresh =>
    if s.auth && !(user == some "") && !(fresh == "") then
      some { s with userId := some (user.getD fresh), isAuthReady := true }
    else none
  | .subscribeOpen =>
    if s.db && s.isAuthReady && !s.subscribed then
      some { s with subscribed := true }
    else none
  | .snapshotArrive recs =>
    if s.subscribed then some { s with packages := recs } else none
  | .subscribeError err =>
    if s.subscribed then
      some { s with uploadMessage := "Failed to load packages: " ++ err }
    else none
  | .setName v =>
    if s.isAuthReady && !s.uploading then some { s with packageName := v }
    else none
  | .setDescription v =>
    if s.isAuthReady && !s.uploading then
      some { s with packageDescription := v }
    else none
  | .setVersion v =>
    if s.isAuthReady && !s.uploading then some { s with packageVersion := v }
    else none
  | .fileChange f =>
    if s.isAuthReady && !s.uploading then some { s with packageFile := some f }
    else none
  | .submitUI =>
    if !s.uploading && s.isAuthReady then some (handleUpload s) else none
  | .progressEv i transferred total =>
    if i < s.pendingUploads.length && transferred ≤ total then
      some { s with uploadProgress := (transferred : ℚ) / (total : ℚ) * 100,
                    uploadMessage := progressMessage transferred total }
    else none
  | .uploadError i msg =>
    if i < s.pendingUploads.length then
      some { s with pendingUploads := s.pendingUploads.eraseIdx i,
                    uploadMessage := "Upload failed: " ++ msg,
                    uploading := false }
    else none
  | .uploadComplete i url =>
    match s.pendingUploads[i]? with
    | some ctx =>
      some { s with pendingUploads := s.pendingUploads.eraseIdx i,
                    committing := s.committing ++ [(ctx, url)],
                    uploadMessage := "Upload successful. Saving package info..." }
    | none => none
  | .urlFail i err =>
    if i < s.pendingUploads.length then
      some { s with pendingUploads := s.pendingUploads.eraseIdx i,
                    uploadMessage := "Failed to save package info: " ++ err,
                    uploading := false, uploadProgress := 0 }
    else none
  | .commitOk i t =>
    match s.committing[i]? with
    | some (ctx, url) =>
      some { s with committing := s.committing.eraseIdx i,
                    records := s.records ++ [mkRecord ctx url t],
                    uploadMessage :=
                      "Package saved successfully! Your SPM program can now fetch it.",
                    packageName := "", packageDescription := "",
                    packageVersion := "", packageFile := none,
                    uploading := false, uploadProgress := 0 }
    | none => none
  | .commitFail i err =>
    match s.committing[i]? with
    | some _ =>
      some { s with committing := s.committing.eraseIdx i,
                    uploadMessage := "Failed to save package info: " ++ err,
                    uploading := false, uploadProgress := 0 }
    | none => none

/-- Run a list of events from a state, failing if any event's guard
fails. -/
def runFrom (s : SessionState) : List Event → Option SessionState
  | [] => some s
  | e :: es => (step s e).bind (fun s1 => runFrom s1 es)

/-- The states a session can reach from mount: `Reach tr s` says the
event trace `tr` drives the freshly mounted component to `s`. -/
@[reducible] def Reach (tr : List Event) (s : SessionState) : Prop :=
  runFrom initState tr = some s

/-- Number of publish transactions currently in flight: upload tasks
still running plus completed uploads whose `addDoc` has not settled. -/
def activeCount (s : SessionState) : Nat :=
  s.pendingUploads.length + s.committing.length

/-- Structural session invariant read off the source: the three store
handles are set together (src/app.js lines 39-41); `isAuthReady` is set
only by the auth listener, which is registered only after
initialization; a truthy `userId` is set only by the same listener,
which also fires the readiness signal; an upload runs only after a
submission gated on readiness; and the UI submission gate keeps exactly
one transaction in flight while `uploading` is set. -/
def Inv (s : SessionState) : Prop :=
  s.db = s.auth ∧ s.storage = s.auth ∧
  (s.isAuthReady = true → s.auth = true) ∧
  (jsTruthy s.userId = true → s.isAuthReady = true) ∧
  (s.uploading = true → s.isAuthReady = true) ∧
  activeCount s = (if s.uploading then 1 else 0)

/-- The four submitted form fields agree between two states. -/
def FormFieldsEq (s t : SessionState) : Prop :=
  s.packageName = t.packageName ∧
  s.packageDescription = t.packageDescription ∧
  s.packageVersion = t.packageVersion ∧
  s.packageFile = t.packageFile

/-- Before any `onAuthStateChanged` invocation: no identity, no upload
ever started, nothing written. -/
def NoIdentityYet (s : SessionState) : Prop :=
  s.userId = none ∧ s.pendingUploads = [] ∧ s.committing = [] ∧
    s.records = []

/-- The session identity is `v` and everything in flight or written
carries it as uploader. -/
def IdentityIs (v : String) (s : SessionState) : Prop :=
  s.userId = some v ∧
  (∀ c ∈ s.pendingUploads, c.uploaderId = v) ∧
  (∀ p ∈ s.committing, p.1.uploaderId = v) ∧
  (∀ r ∈ s.records, r.uploaderId = v)

/-- Recognizes an `onAuthStateChanged` invocation in a trace. -/
def isAuthCb : Event → Bool
  | .authCallback _ _ => true
  | _ => false

/-- An event that issues a store operation from state `s`: opening the
catalog subscription, a submission that passes validation and so starts
an artifact upload, or the settling of a metadata `addDoc` write. -/
def isStoreIssue (s : SessionState) : Event → Bool
  | .subscribeOpen => true
  | .submitUI => !(validationFails s)
  | .commitOk _ _ => true
  | .commitFail _ _ => true
  | _ => false

/-- Fixture: a concrete submitted file. -/
def fileA : JsFile := { name := "demo.py", size := 512 }

/-- Fixture: the upload context `handleUpload` captures for the
submission of `fileA` under name `MyCoolApp`, version `1.0.0`. -/
def ctxA : UploadCtx :=
  { name := "MyCoolApp", description := "d", version := "1.0.0",
    fileName := "mycoolapp_v1.0.0.py", uploaderId := "user-1" }

/-- Fixture trace: initialize, then one auth callback with a signed-in
user. -/
def trReady : List Event :=
  [Event.initOk, Event.authCallback (some "user-1") "fb"]

/-- Fixture: the state `trReady` reaches. -/
def readyState : SessionState :=
  { initState with
      db := true, auth := true, storage := true,
      userId := some "user-1", isAuthReady := true }

/-- Fixture trace: `trReady`, then fill the form and submit. -/
def trBusy : List Event :=
  trReady ++ [Event.setName "MyCoolApp", Event.setDescription "d",
    Event.setVersion "1.0.0", Event.fileChange fileA, Event.submitUI]

/-- Fixture: the state `trBusy` reaches — one upload in flight. -/
def busyState : SessionState :=
  { readyState with
      uploading := true,
      uploadMessage := "Starting upload...",
      packageName := "MyCoolApp", packageDescription := "d",
      packageVersion := "1.0.0", packageFile := some fileA,
      pendingUploads := [ctxA] }

/-- Fixture: ready, form filled, nothing submitted yet. -/
def validState : SessionState :=
  { readyState with
      packageName := "MyCoolApp", packageDescription := "d",
      packageVersion := "1.0.0", packageFile := some fileA }

/-- Fixture: the upload of `busyState` completed, `addDoc` pending. -/
def commitState : SessionState :=
  { busyState with
      pendingUploads := [],
      committing := [(ctxA, "https://u")],
      uploadMessage := "Upload successful. Saving package info..." }

/-- Fixture: the upload of `busyState` failed with message `boom`. -/
def failState : SessionState :=
  { busyState with
      pendingUploads := [], uploading := false,
      uploadMessage := "Upload failed: boom" }

/-- Fixture: the `addDoc` of `commitState` threw with message `boom`. -/
def commitFailState : SessionState :=
  { commitState with
      committing := [], uploading := false, uploadProgress := 0,
      uploadMessage := "Failed to save package info: boom" }

/-- Fixture: the `addDoc` of `commitState` succeeded at store time 7. -/
def doneState : SessionState :=
  { commitState with
      committing := [],
      records := [{ name := "mycoolapp", displayName := "MyCoolApp",
                    description := "d", version := "1.0.0",
                    fileName := "mycoolapp_v1.0.0.py", fileUrl := "https://u",
                    uploaderId := "user-1", uploadTime := 7 }],
      uploadMessage :=
        "Package saved successfully! Your SPM program can now fetch it.",
      packageName := "", packageDescription := "", packageVersion := "",
      packageFile := none, uploading := false, uploadProgress := 0 }

/-- Fixture trace: the auth listener first fires with no user (the
fallback identity is drawn), as happens before the sign-in promise
resolves. -/
def trFallback : List Event :=
  [Event.initOk, Event.authCallback none "fallback-uuid"]

/-- Fixture trace: after the fallback, the listener fires again with
the resolved user. -/
def trSwitch : List Event :=
  trFallback ++ [Event.authCallback (some "uid-42") "x"]

/-- Fixture trace: a full publish performed after the identity
switched. -/
def trSwitchPublish : List Event :=
  trSwitch ++ [Event.setName "A", Event.setDescription "d",
    Event.setVersion "1", Event.fileChange fileA, Event.submitUI,
    Event.uploadComplete 0 "https://u", Event.commitOk 0 3]

theorem inv_initState : Inv initState := by
  simp [Inv, initState, activeCount, jsTruthy]

theorem activeCount_of_uploading {s : SessionState}
    (h6 : activeCount s = (if s.uploading then 1 else 0)) :
    (s.uploading = true ∧ s.pendingUploads.length + s.committing.length = 1) ∨
      (s.uploading = false ∧ s.pendingUploads.length + s.committing.length = 0) := by
  cases hu : s.uploading
  · right
    refine ⟨rfl, ?_⟩
    have := h6
    rw [hu] at this
    simpa [activeCount] using this
  · left
    refine ⟨rfl, ?_⟩
    have := h6
    rw [hu] at this
    simpa [activeCount] using this

theorem inv_step {s s' : SessionState} {e : Event} (hInv : Inv s)
    (h : step s e = some s') : Inv s' := by
  obtain ⟨h1, h2, h3, h4, h5, h6⟩ := hInv
  cases e <;> simp only [step] at h
  case initOk =>
    split at h
    · exact absurd h (by simp)
    · cases h
      exact ⟨rfl, rfl, fun _ => rfl, fun hu => h4 hu, h5, h6⟩
  case initFail err =>
    split at h
    · exact absurd h (by simp)
    · cases h
      exact ⟨h1, h2, h3, h4, h5, h6⟩
  case authCallback user fresh =>
    split at h
    case isTrue hg =>
      cases h
      simp only [Bool.and_eq_true, Bool.not_eq_true', beq_eq_false_iff_ne] at hg
      exact ⟨h1, h2, fun _ => hg.1.1, fun _ => rfl, fun _ => rfl, h6⟩
    case isFalse => exact absurd h (by simp)
  case subscribeOpen =>
    split at h
    · cases h
      exact ⟨h1, h2, h3, h4, h5, h6⟩
    · exact absurd h (by simp)
  case snapshotArrive recs =>
    split at h
    · cases h
      exact ⟨h1, h2, h3, h4, h5, h6⟩
    · exact absurd h (by simp)
  case subscribeError err =>
    split at h
    · cases h
      exact ⟨h1, h2, h3, h4, h5, h6⟩
    · exact absurd h (by simp)
  case setName v =>
    split at h
    · cases h
      exact ⟨h1, h2, h3, h4, h5, h6⟩
    · exact absurd h (by simp)
  case setDescription v =>
    split at h
    · cases h
      exact ⟨h1, h2, h3, h4, h5, h6⟩
    · exact absurd h (by simp)
  case setVersion v =>
    split at h
    · cases h
      exact ⟨h1, h2, h3, h4, h5, h6⟩
    · exact absurd h (by simp)
  case fileChange f =>
    split at h
    · cases h
      exact ⟨h1, h2, h3, h4, h5, h6⟩
    · exact absurd h (by simp)
  case submitUI =>
    split at h
    case isTrue hg =>
      cases h
      simp only [Bool.and_eq_true, Bool.not_eq_true'] at hg
      unfold handleUpload
      split
      · exact ⟨h1, h2, h3, h4, h5, h6⟩
      · split
        · exact ⟨h1, h2, h3, h4, h5, h6⟩
        · refine ⟨h1, h2, h3, h4, fun _ => hg.2, ?_⟩
          rcases activeCount_of_uploading h6 with ⟨hu, _⟩ | ⟨_, hc⟩
          · rw [hg.1] at hu
            exact absurd hu (by simp)
          · show (s.pendingUploads ++ [_]).length + s.committing.length = 1
            rw [List.length_append]
            simp only [List.length_cons, List.length_nil]
            omega
    case isFalse => exact absurd h (by simp)
  case progressEv i transferred total =>
    split at h
    · cases h
      exact ⟨h1, h2, h3, h4, h5, h6⟩
    · exact absurd h (by simp)
  case uploadError i msg =>
    split at h
    case isTrue hg =>
      cases h
      have hlen := List.length_eraseIdx s.pendingUploads i
      rw [if_pos hg] at hlen
      refine ⟨h1, h2, h3, h4, fun hc => absurd hc (by simp), ?_⟩
      rcases activeCount_of_uploading h6 with ⟨_, hc⟩ | ⟨_, hc⟩ <;>
        · show (s.pendingUploads.eraseIdx i).length + s.committing.length = 0
          rw [hlen]
          omega
    case isFalse => exact absurd h (by simp)
  case uploadComplete i url =>
    split at h
    case _ ctx heq =>
      cases h
      have hg : i < s.pendingUploads.length := by
        rcases List.getElem?_eq_some.mp heq with ⟨hl, _⟩
        exact hl
      have hlen := List.length_eraseIdx s.pendingUploads i
      rw [if_pos hg] at hlen
      refine ⟨h1, h2, h3, h4, h5, ?_⟩
      rcases activeCount_of_uploading h6 with ⟨hu, hc⟩ | ⟨hu, hc⟩
      · show (s.pendingUploads.eraseIdx i).length +
          (s.committing ++ [_]).length = if s.uploading = true then 1 else 0
        rw [hu, if_pos rfl, hlen, List.length_append]
        simp only [List.length_cons, List.length_nil]
        omega
      · exact absurd hg (by omega)
    case _ => exact absurd h (by simp)
  case urlFail i err =>
    split at h
    case isTrue hg =>
      cases h
      have hlen := List.length_eraseIdx s.pendingUploads i
      rw [if_pos hg] at hlen
      refine ⟨h1, h2, h3, h4, fun hc => absurd hc (by simp), ?_⟩
      rcases activeCount_of_uploading h6 with ⟨_, hc⟩ | ⟨_, hc⟩ <;>
        · show (s.pendingUploads.eraseIdx i).length + s.committing.length = 0
          rw [hlen]
          omega
    case isFalse => exact absurd h (by simp)
  case commitOk i t =>
    split at h
    case _ p heq =>
      cases h
      have hg : i < s.committing.length := by
        rcases List.getElem?_eq_some.mp heq with ⟨hl, _⟩
        exact hl
      have hlen := List.length_eraseIdx s.committing i
      rw [if_pos hg] at hlen
      refine ⟨h1, h2, h3, h4, fun hc => absurd hc (by simp), ?_⟩
      rcases activeCount_of_uploading h6 with ⟨_, hc⟩ | ⟨_, hc⟩ <;>
        · show s.pendingUploads.length + (s.committing.eraseIdx i).length = 0
          rw [hlen]
          omega
    case _ => exact absurd h (by simp)
  case commitFail i err =>
    split at h
    case _ p heq =>
      cases h
      have hg : i < s.committing.length := by
        rcases List.getElem?_eq_some.mp heq with ⟨hl, _⟩
        exact hl
      have hlen := List.length_eraseIdx s.committing i
      rw [if_pos hg] at hlen
      refine ⟨h1, h2, h3, h4, fun hc => absurd hc (by simp), ?_⟩
      rcases activeCount_of_uploading h6 with ⟨_, hc⟩ | ⟨_, hc⟩ <;>
        · show s.pendingUploads.length + (s.committing.eraseIdx i).length = 0
          rw [hlen]
          omega
    case _ => exact absurd h (by simp)

theorem inv_runFrom {s s' : SessionState} {tr : List Event} (hInv : Inv s)
    (h : runFrom s tr = some s') : Inv s' := by
  induction tr generalizing s with
  | nil => cases h; exact hInv
  | cons e es ih =>
    simp only [runFrom, Option.bind_eq_some] at h
    obtain ⟨s1, hstep, hrun⟩ := h
    exact ih (inv_step hInv hstep) hrun

theorem inv_reach {s : SessionState} {tr : List Event} (h : Reach tr s) :
    Inv s :=
  inv_runFrom inv_initState h

/-- Projections of the component state that `handleUpload` never
writes, on either of its branches: the store handles, the identity and
readiness flags, the form fields, the subscription data and the records
already written. -/
theorem handleUpload_preserves (s : SessionState) :
    (handleUpload s).userId = s.userId ∧
    (handleUpload s).isAuthReady = s.isAuthReady ∧
    (handleUpload s).db = s.db ∧
    (handleUpload s).auth = s.auth ∧
    (handleUpload s).storage = s.storage ∧
    (handleUpload s).packageName = s.packageName ∧
    (handleUpload s).packageDescription = s.packageDescription ∧
    (handleUpload s).packageVersion = s.packageVersion ∧
    (handleUpload s).packageFile = s.packageFile ∧
    (handleUpload s).records = s.records ∧
    (handleUpload s).committing = s.committing ∧
    (handleUpload s).subscribed = s.subscribed ∧
    (handleUpload s).packages = s.packages := by
  unfold handleUpload
  split
  · exact ⟨rfl, rfl, rfl, rfl, rfl, rfl, rfl, rfl, rfl, rfl, rfl, rfl, rfl⟩
  · split <;>
      exact ⟨rfl, rfl, rfl, rfl, rfl, rfl, rfl, rfl, rfl, rfl, rfl, rfl, rfl⟩

/-- Only an `onAuthStateChanged` invocation touches `userId` or
`isAuthReady`: every other event leaves both unchanged (they are set
nowhere else in src/app.js). -/
theorem identity_step_ne {s s' : SessionState} {e : Event}
    (h : step s e = some s') (hne : ∀ u f, e ≠ Event.authCallback u f) :
    s'.userId = s.userId ∧ s'.isAuthReady = s.isAuthReady := by
  cases e
  case authCallback u f => exact absurd rfl (hne u f)
  case submitUI =>
    simp only [step] at h
    split at h
    · cases h
      exact ⟨(handleUpload_preserves s).1, (handleUpload_preserves s).2.1⟩
    · exact absurd h (by simp)
  all_goals simp only [step] at h
  all_goals repeat split at h
  all_goals first
    | (cases h; exact ⟨rfl, rfl⟩)
    | exact absurd h (by simp)

/-- Readiness never reverts: `setIsAuthReady` is only ever called with `true` (src/app.js line
64), so readiness never reverts. -/
theorem isAuthReady_step_mono {s s' : SessionState} {e : Event}
    (h : step s e = some s') (hr : s.isAuthReady = true) :
    s'.isAuthReady = true := by
  by_cases hcb : ∀ u f, e ≠ Event.authCallback u f
  · rw [(identity_step_ne h hcb).2]
    exact hr
  · push_neg at hcb
    obtain ⟨u, f, rfl⟩ := hcb
    simp only [step] at h
    split at h
    · cases h
      rfl
    · exact absurd h (by simp)

/-- If a run starts not-ready and ends ready, some `onAuthStateChanged`
invocation occurs in its trace: firing the readiness signal is the only
way `isAuthReady` becomes `true`. -/
theorem ready_needs_callback {s s' : SessionState} {tr : List Event}
    (h : runFrom s tr = some s') (h0 : s.isAuthReady = false)
    (h1 : s'.isAuthReady = true) : ∃ u f, Event.authCallback u f ∈ tr := by
  induction tr generalizing s with
  | nil =>
    cases h
    rw [h0] at h1
    exact absurd h1 (by simp)
  | cons e es ih =>
    simp only [runFrom, Option.bind_eq_some] at h
    obtain ⟨s1, hstep, hrun⟩ := h
    by_cases hcb : ∀ u f, e ≠ Event.authCallback u f
    · obtain ⟨u, f, hm⟩ :=
        ih hrun ((identity_step_ne hstep hcb).2.trans h0)
      exact ⟨u, f, List.mem_cons_of_mem _ hm⟩
    · push_neg at hcb
      obtain ⟨u, f, rfl⟩ := hcb
      exact ⟨u, f, List.mem_cons_self _ _⟩

/-- While an upload is in flight and stays in flight, no step can
change the submitted form fields or write a record: the field inputs
and the submit control are disabled while `uploading` (src/app.js lines
205, 218, 231, 243, 252), and the only record write — the commit
handler — ends the flight. -/
theorem fields_frozen_while_uploading {s s' : SessionState} {e : Event}
    (h : step s e = some s') (hu : s.uploading = true)
    (hu' : s'.uploading = true) :
    FormFieldsEq s' s ∧ s'.records = s.records := by
  cases e
  all_goals simp only [step] at h
  all_goals repeat split at h
  all_goals first
    | (cases h; exact ⟨⟨rfl, rfl, rfl, rfl⟩, rfl⟩)
    | (cases h; simp at hu'; done)
    | (simp at h; done)
    | (rename_i hg
       have hg2 := (Bool.and_eq_true _ _).mp hg
       rw [hu] at hg2
       simp at hg2
       done)

/-- A valid submission never takes the rejection branch backwards: if
validation fails, `handleUpload` only writes the rejection message. -/
theorem handleUpload_reject {s : SessionState}
    (h : validationFails s = true) :
    handleUpload s =
      { s with uploadMessage := "Please fill all fields and select a file." } := by
  unfold handleUpload
  rw [if_pos h]

/-- With no identity yet (`userId` still `null`), `!userId` makes the
line-107 validation fail. -/
theorem validationFails_of_no_user {s : SessionState}
    (h : s.userId = none) : validationFails s = true := by
  simp [validationFails, jsTruthy, h]

theorem noId_step {s s' : SessionState} {e : Event}
    (h : step s e = some s') (hne : ∀ u f, e ≠ Event.authCallback u f)
    (hn : NoIdentityYet s) : NoIdentityYet s' := by
  obtain ⟨n1, n2, n3, n4⟩ := hn
  cases e
  case authCallback u f => exact absurd rfl (hne u f)
  case submitUI =>
    simp only [step] at h
    split at h
    · cases h
      rw [handleUpload_reject (validationFails_of_no_user n1)]
      exact ⟨n1, n2, n3, n4⟩
    · simp at h
  all_goals simp only [step] at h
  all_goals repeat split at h
  all_goals first
    | (cases h; exact ⟨n1, n2, n3, n4⟩)
    | (simp at h; done)
    | (rename_i hg; rw [n2] at hg; simp at hg; done)
    | (rename_i heq; rw [n2] at heq; simp at heq; done)
    | (rename_i heq; rw [n3] at heq; simp at heq; done)

theorem idIs_step {v : String} {s s' : SessionState} {e : Event}
    (h : step s e = some s') (hne : ∀ u f, e ≠ Event.authCallback u f)
    (hv : IdentityIs v s) : IdentityIs v s' := by
  obtain ⟨i1, i2, i3, i4⟩ := hv
  cases e
  case authCallback u f => exact absurd rfl (hne u f)
  case submitUI =>
    simp only [step] at h
    split at h
    · cases h
      unfold handleUpload
      split
      · exact ⟨i1, i2, i3, i4⟩
      · split
        · exact ⟨i1, i2, i3, i4⟩
        · refine ⟨i1, ?_, i3, i4⟩
          intro c hc
          rw [List.mem_append] at hc
          rcases hc with hc | hc
          · exact i2 c hc
          · rw [List.mem_singleton] at hc
            subst hc
            show s.userId.getD "" = v
            rw [i1]
            rfl
    · simp at h
  case uploadError i msg =>
    simp only [step] at h
    split at h
    · cases h
      exact ⟨i1, fun c hc => i2 c (List.mem_of_mem_eraseIdx hc), i3, i4⟩
    · simp at h
  case urlFail i err =>
    simp only [step] at h
    split at h
    · cases h
      exact ⟨i1, fun c hc => i2 c (List.mem_of_mem_eraseIdx hc), i3, i4⟩
    · simp at h
  case uploadComplete i url =>
    simp only [step] at h
    split at h
    case _ ctx heq =>
      cases h
      rcases List.getElem?_eq_some.mp heq with ⟨hl, hel⟩
      have hctx : ctx ∈ s.pendingUploads := hel ▸ List.getElem_mem hl
      refine ⟨i1, fun c hc => i2 c (List.mem_of_mem_eraseIdx hc), ?_, i4⟩
      intro p hp
      rw [List.mem_append] at hp
      rcases hp with hp | hp
      · exact i3 p hp
      · rw [List.mem_singleton] at hp
        subst hp
        exact i2 ctx hctx
    case _ => simp at h
  case commitOk i t =>
    simp only [step] at h
    split at h
    case _ ctx url heq =>
      cases h
      rcases List.getElem?_eq_some.mp heq with ⟨hl, hel⟩
      have hpmem : (ctx, url) ∈ s.committing := hel ▸ List.getElem_mem hl
      refine ⟨i1, i2, fun p hp => i3 p (List.mem_of_mem_eraseIdx hp), ?_⟩
      intro r hr
      rw [List.mem_append] at hr
      rcases hr with hr | hr
      · exact i4 r hr
      · rw [List.mem_singleton] at hr
        subst hr
        exact i3 (ctx, url) hpmem
    case _ => simp at h
  case commitFail i err =>
    simp only [step] at h
    split at h
    case _ p heq =>
      cases h
      exact ⟨i1, i2, fun q hq => i3 q (List.mem_of_mem_eraseIdx hq), i4⟩
    case _ => simp at h
  all_goals simp only [step] at h
  all_goals repeat split at h
  all_goals first
    | (cases h; exact ⟨i1, i2, i3, i4⟩)
    | (simp at h; done)

theorem idIs_run {v : String} {s s' : SessionState} {tr : List Event}
    (h : runFrom s tr = some s') (hcb : tr.filter isAuthCb = [])
    (hv : IdentityIs v s) :
    IdentityIs v s' ∧ s'.isAuthReady = s.isAuthReady := by
  induction tr generalizing s with
  | nil =>
    cases h
    exact ⟨hv, rfl⟩
  | cons e es ih =>
    simp only [runFrom, Option.bind_eq_some] at h
    obtain ⟨s1, hstep, hrun⟩ := h
    rw [List.filter_cons] at hcb
    by_cases hce : isAuthCb e = true
    · rw [if_pos hce] at hcb
      exact absurd hcb (by simp)
    · rw [if_neg hce] at hcb
      have hne : ∀ u f, e ≠ Event.authCallback u f := by
        rintro u f rfl
        exact hce rfl
      obtain ⟨hv1, hr1⟩ := ih hrun hcb (idIs_step hstep hne hv)
      exact ⟨hv1, hr1.trans (identity_step_ne hstep hne).2⟩

theorem noId_run {s s' : SessionState} {tr : List Event}
    (h : runFrom s tr = some s') (hcb : tr.filter isAuthCb = [])
    (hn : NoIdentityYet s) :
    NoIdentityYet s' ∧ s'.isAuthReady = s.isAuthReady := by
  induction tr generalizing s with
  | nil =>
    cases h
    exact ⟨hn, rfl⟩
  | cons e es ih =>
    simp only [runFrom, Option.bind_eq_some] at h
    obtain ⟨s1, hstep, hrun⟩ := h
    rw [List.filter_cons] at hcb
    by_cases hce : isAuthCb e = true
    · rw [if_pos hce] at hcb
      exact absurd hcb (by simp)
    · rw [if_neg hce] at hcb
      have hne : ∀ u f, e ≠ Event.authCallback u f := by
        rintro u f rfl
        exact hce rfl
      obtain ⟨hn1, hr1⟩ := ih hrun hcb (noId_step hstep hne hn)
      exact ⟨hn1, hr1.trans (identity_step_ne hstep hne).2⟩

theorem single_cb_run {s s' : SessionState} {tr : List Event}
    {u : Option String} {f : String}
    (h : runFrom s tr = some s')
    (hcb : tr.filter isAuthCb = [Event.authCallback u f])
    (hn : NoIdentityYet s) :
    IdentityIs (u.getD f) s' ∧ s'.isAuthReady = true := by
  induction tr generalizing s with
  | nil => simp at hcb
  | cons e es ih =>
    simp only [runFrom, Option.bind_eq_some] at h
    obtain ⟨s1, hstep, hrun⟩ := h
    rw [List.filter_cons] at hcb
    by_cases hce : isAuthCb e = true
    · rw [if_pos hce] at hcb
      injection hcb with h1 h2
      subst h1
      simp only [step] at hstep
      split at hstep
      · cases hstep
        obtain ⟨n1, n2, n3, n4⟩ := hn
        have hid : IdentityIs (u.getD f)
            { s with userId := some (u.getD f), isAuthReady := true } := by
          refine ⟨rfl, ?_, ?_, ?_⟩
          · rw [n2]; intro c hc; simp at hc
          · rw [n3]; intro p hp; simp at hp
          · rw [n4]; intro r hr; simp at hr
        obtain ⟨hv1, hr1⟩ := idIs_run hrun h2 hid
        exact ⟨hv1, hr1⟩
      · simp at hstep
    · rw [if_neg hce] at hcb
      have hne : ∀ u' f', e ≠ Event.authCallback u' f' := by
        rintro u' f' rfl
        exact hce rfl
      exact ih hrun hcb (noId_step hstep hne hn)

theorem data_append (s t : String) : (s ++ t).data = s.data ++ t.data :=
  rfl

theorem string_data_inj {s t : String} (h : s.data = t.data) : s = t := by
  cases s
  cases t
  exact congrArg String.mk h

theorem splitDot_no_dot : ∀ l : List Char, '.' ∉ l → splitDot l = [l]
  | [], _ => rfl
  | c :: cs, h => by
    have hc : c ≠ '.' := fun he => h (he ▸ List.mem_cons_self _ _)
    have ih := splitDot_no_dot cs (fun hm => h (List.mem_cons_of_mem _ hm))
    simp only [splitDot, if_neg hc, ih]

theorem fileExtension_no_dot (f : String) (h : '.' ∉ f.data) :
    fileExtension f = f := by
  unfold fileExtension
  rw [splitDot_no_dot f.data h]
  cases f
  rfl

/-- The metadata-commit failure message and the upload failure message
are distinct strings whatever the underlying error texts are. -/
theorem commit_msg_ne_upload_msg (a b : String) :
    "Failed to save package info: " ++ a ≠ "Upload failed: " ++ b := by
  intro h
  have hd : ("Failed to save package info: " ++ a).data.head? =
      ("Upload failed: " ++ b).data.head? := by rw [h]
  have h1 : ("Failed to save package info: " ++ a).data.head? = some 'F' :=
    rfl
  have h2 : ("Upload failed: " ++ b).data.head? = some 'U' := rfl
  rw [h1, h2] at hd
  simp at hd

/-- C5: the destination filename is computed deterministically as the
lowercased name with every character outside `[a-z0-9_.-]` stripped,
followed by `_v`, the version, `.`, and the original file extension; in
particular name `MyCoolApp`, version `1.0.0`, file `demo.py` resolve to
exactly `mycoolapp_v1.0.0.py`. -/
theorem deterministic_fileName :
    deriveFileName "MyCoolApp" "1.0.0" "demo.py" = "mycoolapp_v1.0.0.py" ∧
    (∀ n v f, deriveFileName n v f =
      sanitizedName n ++ "_v" ++ v ++ "." ++ fileExtension f) ∧
    (∀ n, (sanitizedName n).data = (jsToLower n).data.filter allowedChar) ∧
    (∀ c, allowedChar c = true ↔
      (('a' ≤ c ∧ c ≤ 'z') ∨ ('0' ≤ c ∧ c ≤ '9') ∨
        c = '_' ∨ c = '.' ∨ c = '-')) := by
  refine ⟨by decide, fun n v f => rfl, fun n => rfl, fun c => ?_⟩
  simp only [allowedChar, Bool.or_eq_true, Bool.and_eq_true,
    decide_eq_true_eq, beq_iff_eq]
  tauto

/-- C6 counterexample: the derived fileName is not unique per raw
(name, version) pair even for a fixed extension: `MyApp` and `myapp`
sanitize identically, and the `_v` separator can be absorbed by the
name (`a_v1`, version `2`) or the version (`a`, version `1_v2`). -/
theorem fileName_collision :
    deriveFileName "MyApp" "1" "a.py" = deriveFileName "myapp" "1" "a.py" ∧
    (("MyApp", "1") : String × String) ≠ ("myapp", "1") ∧
    deriveFileName "a_v1" "2" "b.py" = deriveFileName "a" "1_v2" "b.py" ∧
    (("a_v1", "2") : String × String) ≠ ("a", "1_v2") := by
  decide

/-- C6 (amended): for two publishes with the same file extension, the
derived fileNames differ whenever the sanitized names agree and the
versions differ, or the versions agree and the sanitized names differ;
uniqueness for arbitrary distinct (name, version) pairs does not hold. -/
theorem fileName_unique_one_coordinate (n1 v1 n2 v2 f : String) :
    (sanitizedName n1 = sanitizedName n2 → v1 ≠ v2 →
      deriveFileName n1 v1 f ≠ deriveFileName n2 v2 f) ∧
    (v1 = v2 → sanitizedName n1 ≠ sanitizedName n2 →
      deriveFileName n1 v1 f ≠ deriveFileName n2 v2 f) := by
  constructor
  · intro hs hv h
    apply hv
    have hd := congrArg String.data h
    simp only [deriveFileName, data_append] at hd
    rw [hs] at hd
    have h3 := List.append_cancel_right hd
    have h4 := List.append_cancel_right h3
    exact string_data_inj (List.append_cancel_left h4)
  · intro hv hs h
    apply hs
    subst hv
    have hd := congrArg String.data h
    simp only [deriveFileName, data_append] at hd
    have h3 := List.append_cancel_right hd
    have h4 := List.append_cancel_right h3
    have h5 := List.append_cancel_right h4
    exact string_data_inj (List.append_cancel_right h5)

/-- C6 witness: same name `app`, versions `1` and `2`, same file — the
fileNames differ. -/
theorem fileName_unique_one_coordinate_witness :
    deriveFileName "app" "1" "x.py" ≠ deriveFileName "app" "2" "x.py" :=
  (fileName_unique_one_coordinate "app" "1" "app" "2" "x.py").1 rfl
    (by decide)

/-- C10: when the submitted file name has no dot, `split('.').pop()`
returns the whole name, so the destination filename ends with the whole
original file name after the dot, and the validation of `handleUpload`
never inspects the file name, so such a file is never rejected. -/
theorem no_dot_extension :
    (∀ f : String, '.' ∉ f.data → fileExtension f = f) ∧
    deriveFileName "App" "1" "demo" = "app_v1.demo" ∧
    (∀ (s : SessionState) (f g : JsFile),
      validationFails { s with packageFile := some f } =
        validationFails { s with packageFile := some g }) :=
  ⟨fun f h => fileExtension_no_dot f h, by decide, fun _ _ _ => rfl⟩

/-- C10 witness: the dot-free file name `demo` is its own extension. -/
theorem no_dot_extension_witness : fileExtension "demo" = "demo" :=
  no_dot_extension.1 "demo" (by decide)

/-- C7: when the metadata write fails after a successful artifact
upload, no catalog record is created by that transaction, the submitted
form fields are not cleared, and the surfaced message is
`Failed to save package info: …`, which differs from the upload-failure
message `Upload failed: …` whatever the error texts. -/
theorem metadata_failure_handling {s s' : SessionState} {i : Nat}
    {err : String} (h : step s (Event.commitFail i err) = some s') :
    s'.records = s.records ∧ FormFieldsEq s' s ∧
    s'.uploadMessage = "Failed to save package info: " ++ err ∧
    (∀ m, s'.uploadMessage ≠ "Upload failed: " ++ m) := by
  simp only [step] at h
  split at h
  · cases h
    exact ⟨rfl, ⟨rfl, rfl, rfl, rfl⟩, rfl,
      fun m => commit_msg_ne_upload_msg err m⟩
  · simp at h

/-- C7 witness: a concrete commit failure out of `commitState`. -/
theorem metadata_failure_handling_witness :
    commitFailState.records = commitState.records ∧
    FormFieldsEq commitFailState commitState ∧
    commitFailState.uploadMessage =
      "Failed to save package info: " ++ "boom" :=
  have h := @metadata_failure_handling commitState commitFailState 0 "boom"
    (by decide)
  ⟨h.1, h.2.1, h.2.2.1⟩

/-- C8: an uploader failure event during `Uploading` ends the
transaction with no metadata record written (the records and committing
queues are untouched) and leaves the submitted form fields unchanged;
and while an upload stays in flight no step can alter those fields, so
the values at failure are the values at submission. -/
theorem upload_failure_preserves_form :
    (∀ (s s' : SessionState) (i : Nat) (msg : String),
      step s (Event.uploadError i msg) = some s' →
      s'.records = s.records ∧ s'.committing = s.committing ∧
      FormFieldsEq s' s ∧
      s'.uploadMessage = "Upload failed: " ++ msg ∧
      s'.uploading = false) ∧
    (∀ (s s' : SessionState) (e : Event),
      step s e = some s' → s.uploading = true → s'.uploading = true →
      FormFieldsEq s' s ∧ s'.records = s.records) := by
  constructor
  · intro s s' i msg h
    simp only [step] at h
    split at h
    · cases h
      exact ⟨rfl, rfl, ⟨rfl, rfl, rfl, rfl⟩, rfl, rfl⟩
    · simp at h
  · intro s s' e h hu hu'
    exact fields_frozen_while_uploading h hu hu'

/-- C8 witness: a concrete upload failure out of `busyState`. -/
theorem upload_failure_preserves_form_witness :
    failState.records = busyState.records ∧
    failState.committing = busyState.committing ∧
    FormFieldsEq failState busyState ∧
    failState.uploadMessage = "Upload failed: " ++ "boom" ∧
    failState.uploading = false :=
  upload_failure_preserves_form.1 busyState failState 0 "boom" (by decide)

/-- C9: on terminal publish success the coordinator clears all four
form fields and resets the progress indicators, and the committed
record — written by appending exactly one record in one `addDoc` call —
carries the lowercased submitted name, the submitted name as
displayName, the submitted description and version, the derived
fileName, the resolved download URL and the identity captured at
submission as uploaderId; the final conjunct ties the committed context
to the submitted field values and identity. -/
theorem publish_success_effects {s s' : SessionState} {i t : Nat}
    {c : UploadCtx} {url : String}
    (hm : s.committing[i]? = some (c, url))
    (h : step s (Event.commitOk i t) = some s') :
    s'.packageName = "" ∧ s'.packageDescription = "" ∧
    s'.packageVersion = "" ∧ s'.packageFile = none ∧
    s'.uploading = false ∧ s'.uploadProgress = 0 ∧
    s'.records = s.records ++
      [{ name := jsToLower c.name, displayName := c.name,
         description := c.description, version := c.version,
         fileName := c.fileName, fileUrl := url,
         uploaderId := c.uploaderId, uploadTime := t }] ∧
    (∀ (s0 : SessionState) (f : JsFile),
      validationFails s0 = false → s0.packageFile = some f →
      (handleUpload s0).pendingUploads =
        s0.pendingUploads ++
          [{ name := s0.packageName, description := s0.packageDescription,
             version := s0.packageVersion,
             fileName :=
               deriveFileName s0.packageName s0.packageVersion f.name,
             uploaderId := s0.userId.getD "" }]) := by
  simp only [step] at h
  split at h
  case _ c2 url2 heq =>
    rw [hm] at heq
    injection heq with heq2
    injection heq2 with hc hu
    subst hc
    subst hu
    cases h
    refine ⟨rfl, rfl, rfl, rfl, rfl, rfl, rfl, ?_⟩
    intro s0 f h0 hf
    unfold handleUpload
    rw [if_neg (by rw [h0]; simp)]
    rw [hf]
  case _ hnone =>
    rw [hm] at hnone
    exact absurd hnone (by simp)

/-- C9 witness: a concrete successful commit out of `commitState`,
plus the submission step for `validState` capturing field values and
identity. -/
theorem publish_success_effects_witness :
    doneState.packageName = "" ∧ doneState.packageDescription = "" ∧
    doneState.packageVersion = "" ∧ doneState.packageFile = none ∧
    doneState.uploading = false ∧ doneState.uploadProgress = 0 ∧
    doneState.records = commitState.records ++
      [{ name := jsToLower ctxA.name, displayName := ctxA.name,
         description := ctxA.description, version := ctxA.version,
         fileName := ctxA.fileName, fileUrl := "https://u",
         uploaderId := ctxA.uploaderId, uploadTime := 7 }] ∧
    (handleUpload validState).pendingUploads =
      validState.pendingUploads ++
        [{ name := validState.packageName,
           description := validState.packageDescription,
           version := validState.packageVersion,
           fileName := deriveFileName validState.packageName
             validState.packageVersion fileA.name,
           uploaderId := validState.userId.getD "" }] :=
  have h := @publish_success_effects commitState doneState 0 7 ctxA
    "https://u" (by decide) (by decide)
  ⟨h.1, h.2.1, h.2.2.1, h.2.2.2.1, h.2.2.2.2.1, h.2.2.2.2.2.1,
    h.2.2.2.2.2.2.1,
    h.2.2.2.2.2.2.2 validState fileA (by decide) (by decide)⟩

/-- C1 counterexample: the coordinator's publish entry point does not
reject a request made while an upload is in flight. `busyState` is
reachable (trace `trBusy`) with one upload pending, all fields still
filled and `uploading` set; invoking `handleUpload` on it starts a
second upload (the pending queue grows to two and the accept message is
written) instead of rejecting. -/
theorem handleUpload_no_exclusivity_gate :
    Reach trBusy busyState ∧ busyState.uploading = true ∧
    (handleUpload busyState).pendingUploads.length = 2 ∧
    (handleUpload busyState).uploadMessage = "Starting upload..." ∧
    (handleUpload busyState).uploadMessage ≠
      "Please fill all fields and select a file." := by
  decide

/-- C1 (amended): exclusivity holds for requests made through the UI —
the submit control is disabled while `uploading` or before readiness —
so every reachable state has at most one publish transaction in flight;
the entry-point function itself performs no exclusivity check. -/
theorem ui_transaction_exclusivity {tr : List Event} {s : SessionState}
    (h : Reach tr s) : activeCount s ≤ 1 := by
  obtain ⟨_, _, _, _, _, h6⟩ := inv_reach h
  rcases activeCount_of_uploading h6 with ⟨_, hc⟩ | ⟨_, hc⟩ <;>
    · show s.pendingUploads.length + s.committing.length ≤ 1
      omega

/-- C1 witness: the reachable state `busyState` has one transaction in
flight. -/
theorem ui_transaction_exclusivity_witness : activeCount busyState ≤ 1 :=
  @ui_transaction_exclusivity trBusy busyState (by decide)

/-- C2: no store operation — opening the catalog subscription, starting
an artifact upload through a validated submission, or settling the
metadata write — is issued before the readiness signal
(`setIsAuthReady(true)`) has fired: the issuing state is ready, and the
trace reaching it contains an `onAuthStateChanged` invocation. -/
theorem readiness_gating {tr : List Event} {s s' : SessionState}
    {e : Event} (hre : Reach tr s) (hstep : step s e = some s')
    (hop : isStoreIssue s e = true) :
    s.isAuthReady = true ∧ ∃ u f, Event.authCallback u f ∈ tr := by
  obtain ⟨_, _, _, _, h5, h6⟩ := inv_reach hre
  have hready : s.isAuthReady = true := by
    cases e <;> simp only [isStoreIssue] at hop
    case subscribeOpen =>
      simp only [step] at hstep
      split at hstep
      · rename_i hg
        simp only [Bool.and_eq_true] at hg
        exact hg.1.2
      · simp at hstep
    case submitUI =>
      simp only [step] at hstep
      split at hstep
      · rename_i hg
        simp only [Bool.and_eq_true] at hg
        exact hg.2
      · simp at hstep
    case commitOk i t =>
      simp only [step] at hstep
      split at hstep
      case _ c2 url2 heq =>
        have hl : i < s.committing.length := by
          rcases List.getElem?_eq_some.mp heq with ⟨hl, _⟩
          exact hl
        rcases activeCount_of_uploading h6 with ⟨hu, _⟩ | ⟨_, hc⟩
        · exact h5 hu
        · exact absurd hl (by omega)
      case _ => simp at hstep
    case commitFail i err =>
      simp only [step] at hstep
      split at hstep
      case _ p heq =>
        have hl : i < s.committing.length := by
          rcases List.getElem?_eq_some.mp heq with ⟨hl, _⟩
          exact hl
        rcases activeCount_of_uploading h6 with ⟨hu, _⟩ | ⟨_, hc⟩
        · exact h5 hu
        · exact absurd hl (by omega)
      case _ => simp at hstep
    all_goals simp at hop
  exact ⟨hready, ready_needs_callback hre rfl hready⟩

/-- C2 witness: the subscription opened from `readyState` (reached by
`trReady`) is gated behind the readiness callback of that trace. -/
theorem readiness_gating_witness :
    readyState.isAuthReady = true ∧
      ∃ u f, Event.authCallback u f ∈ trReady :=
  @readiness_gating trReady readyState
    { readyState with subscribed := true } Event.subscribeOpen
    (by decide) (by decide) (by decide)

/-- C3 counterexample: the auth listener can fire first with no user —
as happens before the sign-in promise resolves — and then again with
the resolved user. The readiness signal then fires carrying the random
fallback identity, but the identity is later reassigned, and a publish
performed afterwards records the new identity, not the one the
readiness signal carried. -/
theorem identity_reassigned_after_fallback :
    (runFrom initState trFallback).map
        (fun s => (s.userId, s.isAuthReady)) =
      some (some "fallback-uuid", true) ∧
    (runFrom initState trSwitch).map (fun s => s.userId) =
      some (some "uid-42") ∧
    (runFrom initState trSwitchPublish).map
        (fun s => s.records.map (fun r => r.uploaderId)) =
      some ["uid-42"] ∧
    ("fallback-uuid" : String) ≠ "uid-42" := by
  decide

/-- C3 (amended): `userId` is reassigned on every `onAuthStateChanged`
invocation, so immutability holds only when the listener fires exactly
once in the session: then the identity is the delivered uid (or the
fallback if no user was delivered), readiness is set, and every pending
upload context, committing context and written record carries exactly
that identity as uploader. -/
theorem identity_stable_single_callback {tr : List Event}
    {s : SessionState} {u : Option String} {f : String}
    (h : Reach tr s)
    (hcb : tr.filter isAuthCb = [Event.authCallback u f]) :
    s.userId = some (u.getD f) ∧ s.isAuthReady = true ∧
    (∀ c ∈ s.pendingUploads, c.uploaderId = u.getD f) ∧
    (∀ p ∈ s.committing, p.1.uploaderId = u.getD f) ∧
    (∀ r ∈ s.records, r.uploaderId = u.getD f) := by
  obtain ⟨⟨i1, i2, i3, i4⟩, hr⟩ :=
    single_cb_run h hcb ⟨rfl, rfl, rfl, rfl⟩
  exact ⟨i1, hr, i2, i3, i4⟩

/-- C3 witness: the single-callback trace `trBusy` pins the identity to
the delivered uid. -/
theorem identity_stable_single_callback_witness :
    busyState.userId = some ((some "user-1" : Option String).getD "fb") ∧
      busyState.isAuthReady = true :=
  have h := @identity_stable_single_callback trBusy busyState
    (some "user-1") "fb" (by decide) (by decide)
  ⟨h.1, h.2.1⟩

/-- C4: in any reachable state, `handleUpload` rejects — writing the
human-readable message and starting no upload, touching no store state —
exactly when a submitted field is empty or absent or the identity or a
store handle is uninitialized (the code checks only `auth` and
`userId`, but the handles are initialized together, so the
characterization extends to `db` and `storage` on reachable states);
otherwise it starts the upload. -/
theorem validation_rejection_iff {tr : List Event} {s : SessionState}
    (h : Reach tr s) :
    (validationFails s = true ↔
      (s.packageFile = none ∨ s.packageName = "" ∨
        s.packageDescription = "" ∨ s.packageVersion = "" ∨
        jsTruthy s.userId = false ∨ s.auth = false ∨
        s.db = false ∨ s.storage = false)) ∧
    (validationFails s = true →
      handleUpload s =
        { s with
            uploadMessage := "Please fill all fields and select a file." }) ∧
    (validationFails s = false →
      (handleUpload s).pendingUploads.length =
        s.pendingUploads.length + 1 ∧
      (handleUpload s).uploading = true) := by
  obtain ⟨h1, h2, _, _, _, _⟩ := inv_reach h
  refine ⟨?_, fun hv => handleUpload_reject hv, fun hv => ?_⟩
  · have hdb : s.db = false → s.auth = false := by
      intro hh
      rw [← h1]
      exact hh
    have hst : s.storage = false → s.auth = false := by
      intro hh
      rw [← h2]
      exact hh
    simp only [validationFails, Bool.or_eq_true, Option.isNone_iff_eq_none,
      beq_iff_eq, Bool.not_eq_true']
    constructor
    · rintro (((((h1 | h2) | h3) | h4) | h5) | h6)
      · exact Or.inl h1
      · exact Or.inr (Or.inl h2)
      · exact Or.inr (Or.inr (Or.inl h3))
      · exact Or.inr (Or.inr (Or.inr (Or.inl h4)))
      · exact Or.inr (Or.inr (Or.inr (Or.inr (Or.inr (Or.inl h5)))))
      · exact Or.inr (Or.inr (Or.inr (Or.inr (Or.inl h6))))
    · rintro (hA | hB | hC | hD | hU | hAu | hDb | hSt)
      · exact Or.inl (Or.inl (Or.inl (Or.inl (Or.inl hA))))
      · exact Or.inl (Or.inl (Or.inl (Or.inl (Or.inr hB))))
      · exact Or.inl (Or.inl (Or.inl (Or.inr hC)))
      · exact Or.inl (Or.inl (Or.inr hD))
      · exact Or.inr hU
      · exact Or.inl (Or.inr hAu)
      · exact Or.inl (Or.inr (hdb hDb))
      · exact Or.inl (Or.inr (hst hSt))
  · unfold handleUpload
    rw [if_neg (by rw [hv]; simp)]
    cases hpf : s.packageFile with
    | none =>
      have hcontra : validationFails s = true := by
        simp [validationFails, hpf]
      rw [hcontra] at hv
      exact Bool.noConfusion hv
    | some f =>
      constructor
      · simp [List.length_append]
      · rfl

/-- C4 witness: `readyState` is reachable and, with its empty form,
`handleUpload` rejects it with the message and no started upload. -/
theorem validation_rejection_iff_witness :
    (validationFails readyState = true ↔
      (readyState.packageFile = none ∨ readyState.packageName = "" ∨
        readyState.packageDescription = "" ∨
        readyState.packageVersion = "" ∨
        jsTruthy readyState.userId = false ∨ readyState.auth = false ∨
        readyState.db = false ∨ readyState.storage = false)) ∧
    (validationFails readyState = true →
      handleUpload readyState =
        { readyState with
            uploadMessage := "Please fill all fields and select a file." }) ∧
    (validationFails readyState = false →
      (handleUpload readyState).pendingUploads.length =
        readyState.pendingUploads.length + 1 ∧
      (handleUpload readyState).uploading = true) :=
  @validation_rejection_iff trReady readyState (by decide)

end ShellOSPackages
